import Mathlib

set_option maxRecDepth 8000
set_option autoImplicit false

namespace EPMA

/-! Shallow embedding of `epma.py`: the ingestion routine `read_data` and the
renderer `map_series`. File discovery (`glob`) is abstracted as input filename
lists, `np.loadtxt` as an abstract loader, and the matplotlib calls as an
event trace recording every figure opened or closed, every pseudocolor panel
drawn (with its colormap and explicit color-scale bounds, if any) and every
file saved. A call that raises a Python exception ends with that fault and
the partial trace of what happened before it. -/

instance exceptDecEq {ε α : Type} [DecidableEq ε] [DecidableEq α] :
    DecidableEq (Except ε α) := fun x y =>
  match x, y with
  | Except.ok a, Except.ok b =>
    if h : a = b then isTrue (by rw [h]) else isFalse (by simp [h])
  | Except.error a, Except.error b =>
    if h : a = b then isTrue (by rw [h]) else isFalse (by simp [h])
  | Except.ok _, Except.error _ => isFalse (by simp)
  | Except.error _, Except.ok _ => isFalse (by simp)

/-- Runtime faults the Python code can raise. -/
inductive PyErr where
  | indexError
  | keyError
  | valueError
  | zeroDivisionError
  deriving DecidableEq

/-- An element map: a 2-D grid of integer detector counts. -/
abbrev Grid := List (List Int)

/-- Shape of a numpy 2-D array: (number of rows, number of columns). -/
def gridShape (g : Grid) : Nat × Nat := (g.length, (g.headD []).length)

/-- All entries of a grid, in row order. -/
def gridEntries (g : Grid) : List Int := g.foldr (fun row acc => row ++ acc) []

/-- Minimum entry of a grid (0 for an empty grid). -/
def gridMin (g : Grid) : Int :=
  match gridEntries g with
  | [] => 0
  | x :: xs => xs.foldl min x

/-- Maximum entry of a grid (0 for an empty grid). -/
def gridMax (g : Grid) : Int :=
  match gridEntries g with
  | [] => 0
  | x :: xs => xs.foldl max x

/-- `scipy.ndimage.rotate(values, -90)`: a clockwise quarter turn of the grid. -/
def rotateNeg90 (g : Grid) : Grid := g.reverse.transpose

/-- Color-scale bounds of a matplotlib pseudocolor draw call: the explicit
`vmin`/`vmax` pair when one was supplied, otherwise auto-scaled to the
minimum and maximum of the drawn data. -/
def effectiveBounds (b : Option (Int × Int)) (g : Grid) : Int × Int :=
  match b with
  | some p => p
  | none => (gridMin g, gridMax g)

/-- Python `str.split(sep)` for a single-character separator, on the
character list of the string. -/
def splitOnChar (sep : Char) : List Char → List (List Char)
  | [] => [[]]
  | ch :: rest =>
    match splitOnChar sep rest with
    | [] => [[ch]]
    | piece :: pieces =>
      if ch = sep then [] :: piece :: pieces else (ch :: piece) :: pieces

/-- Python `s.split(sep)` for a single-character separator. -/
def pySplit (sep : Char) (s : String) : List String :=
  (splitOnChar sep s.toList).map String.mk

/-- Python negative indexing `l[-i]` (for `i ≥ 1`): raises `IndexError` when
the list is too short. -/
def pyNegIdx (l : List String) (i : Nat) : Except PyErr String :=
  if h : 0 < i ∧ i ≤ l.length then
    Except.ok (l.get ⟨l.length - i, by omega⟩)
  else
    Except.error PyErr.indexError

/-- `x.split('.')[-2]` on a metadata filename: the element-label token. -/
def metaLabel (x : String) : Except PyErr String := pyNegIdx (pySplit '.' x) 2

/-- `x.split('.')[-3].split("\\")[-1]`: the index token of a metadata
filename, with any directory part stripped. -/
def metaIndex (x : String) : Except PyErr String :=
  (pyNegIdx (pySplit '.' x) 3).map (fun s => (pySplit '\\' s).getLastD "")

/-- `file_name.split("\\")[-1].split("_")[0]`: the leading index token of a
data filename. -/
def dataIndex (f : String) : String :=
  ((pySplit '_' ((pySplit '\\' f).getLastD "")).headD "")

/-- Python dict assignment `d[k] = v` on an insertion-ordered dict: update in
place when the key is present, else append at the end. -/
def dictInsert {α : Type} (d : List (String × α)) (k : String) (v : α) :
    List (String × α) :=
  if d.any (fun p => p.1 == k) then
    d.map (fun p => if p.1 == k then (k, v) else p)
  else d ++ [(k, v)]

/-- The dict comprehension of `read_data` (line 36) building the index ↦ label
mapping from the metadata (`.pm`) filenames, skipping excluded labels. The
comprehension evaluates the filter condition (the label token) before the key
expression (the index token), so a too-short filename with an excluded label
is skipped rather than faulting. -/
def buildElements (exclude : List String) :
    List String → List (String × String) → Except PyErr (List (String × String))
  | [], acc => Except.ok acc
  | x :: rest, acc =>
    match metaLabel x with
    | Except.error e => Except.error e
    | Except.ok lbl =>
      if lbl ∈ exclude then buildElements exclude rest acc
      else
        match metaIndex x with
        | Except.error e => Except.error e
        | Except.ok idx => buildElements exclude rest (dictInsert acc idx lbl)

/-- The data-file loop of `read_data` (lines 39-43): keep the files whose
leading index token has a metadata entry, skip the rest silently. -/
def buildDatas (elements : List (String × String)) (load : String → Grid) :
    List String → List (String × Grid) → List (String × Grid)
  | [], acc => acc
  | f :: rest, acc =>
    match elements.lookup (dataIndex f) with
    | none => buildDatas elements load rest acc
    | some lbl => buildDatas elements load rest (dictInsert acc lbl (load f))

/-- `read_data`, abstracted over the directory listing: `maps` is the list of
`*.txt` matches, `pmFiles` the list of `*.pm` matches, and `load` stands for
`np.loadtxt`. -/
def readData (maps pmFiles : List String) (exclude : List String)
    (load : String → Grid) : Except PyErr (List (String × Grid)) :=
  (buildElements exclude pmFiles []).map
    (fun elements => buildDatas elements load maps [])

/-- The `color_map` argument of `map_series`: a single colormap name, or a
list cycled over the elements. -/
inductive ColorMapArg where
  | str (s : String)
  | list (l : List String)
  deriving DecidableEq

/-- The cycling loop of `map_series` (lines 108-118): a key literally equal
to `"CP"` is pinned to `'Greys'` and does not advance the cycle index; any
other key takes `cycle[index % len(cycle)]`, which raises `ZeroDivisionError`
when the cycle list is empty. -/
def assignList (cycle : List String) :
    List String → Nat → Except PyErr (List (String × String))
  | [], _ => Except.ok []
  | k :: ks, idx =>
    if k = "CP" then
      (assignList cycle ks idx).map (fun m => ("CP", "Greys") :: m)
    else if cycle.length = 0 then Except.error PyErr.zeroDivisionError
    else
      (assignList cycle ks (idx + 1)).map
        (fun m => (k, cycle.getD (idx % cycle.length) "") :: m)

/-- Lines 106-118 of `map_series`: the per-element colormap assignment. -/
def assignColorMaps : ColorMapArg → List String → Except PyErr (List (String × String))
  | ColorMapArg.str s, keys => Except.ok (keys.map (fun k => (k, s)))
  | ColorMapArg.list l, keys => assignList l keys 0

/-- Everything drawn into one individual per-element figure. -/
structure IndivRender where
  key : String
  cmap : String
  bounds : Option (Int × Int)
  data : Grid
  deriving DecidableEq

/-- One panel of the combined figure. -/
structure CellRender where
  row : Nat
  col : Nat
  key : String
  cmap : String
  bounds : Option (Int × Int)
  data : Grid
  title : Option String
  ylabel : Bool
  xlabel : Bool
  colorbar : Bool
  deriving DecidableEq

/-- Observable actions of `map_series`, in program order. -/
inductive Event where
  | mesh (shape : Nat × Nat) (pixelSize : Int × Int)
  | openFig
  | closeFig
  | saveIndiv (filename : String) (render : IndivRender)
  | placeCell (cell : CellRender)
  | saveCombined (filename : String)
  deriving DecidableEq

/-- Outcome of a `map_series` call: the trace of events that happened, and
the fault that ended the call early, if any. -/
structure PyResult where
  events : List Event
  error : Option PyErr
  deriving DecidableEq

/-- Entries of a dataset other than the reserved `"CP"` channel. -/
def nonCP (datas : List (String × Grid)) : List (String × Grid) :=
  datas.filter (fun p => p.1 != "CP")

/-- The per-element loop of `map_series` (lines 120-138): open a figure, draw
the rotated map with the assigned colormap and the `limits` entry when one
exists, save `<label>_<element><extension>`, close the figure. -/
def indivEvents (assignment : List (String × String))
    (limits : List (String × (Int × Int))) (label extension : String) :
    List (String × Grid) → List Event
  | [] => []
  | (key, values) :: rest =>
    Event.openFig ::
    Event.saveIndiv (label ++ "_" ++ key ++ extension)
      { key := key
        cmap := (assignment.lookup key).getD ""
        bounds := limits.lookup key
        data := rotateNeg90 values } ::
    Event.closeFig ::
    indivEvents assignment limits label extension rest

/-- The combined-figure loop of `map_series` (lines 161-187): place each
non-`"CP"` element at the running grid position `(i, j)`; `gs[i, j]` raises
`IndexError` when the position is outside the `rows × columns` grid. After a
placement `j` advances and wraps to the next row when it reaches `columns`. -/
def placeCells (r c : Nat) (assignment : List (String × String))
    (limits : List (String × (Int × Int))) :
    List (String × Grid) → Nat → Nat → List Event × Option PyErr
  | [], _, _ => ([], none)
  | (key, values) :: rest, i, j =>
    if key = "CP" then placeCells r c assignment limits rest i j
    else if i < r ∧ j < c then
      let cell : CellRender :=
        { row := i
          col := j
          key := key
          cmap := (assignment.lookup key).getD ""
          bounds := limits.lookup key
          data := rotateNeg90 values
          title := some key
          ylabel := decide (j = 0)
          xlabel := decide (i + 1 = r)
          colorbar := true }
      let next : Nat × Nat := if (j + 1) % c = 0 then (i + 1, 0) else (i, j + 1)
      let res := placeCells r c assignment limits rest next.1 next.2
      (Event.placeCell cell :: res.1, res.2)
    else ([], some PyErr.indexError)

/-- The panel the combined loop would place at linear position `p` (row-major
over `c` columns). -/
def mkCell (r c : Nat) (assignment : List (String × String))
    (limits : List (String × (Int × Int))) (p : Nat) (key : String)
    (values : Grid) : CellRender :=
  { row := p / c
    col := p % c
    key := key
    cmap := (assignment.lookup key).getD ""
    bounds := limits.lookup key
    data := rotateNeg90 values
    title := some key
    ylabel := decide (p % c = 0)
    xlabel := decide (p / c + 1 = r)
    colorbar := true }

/-- Row-major placement specification: the panels of the non-`"CP"` elements
at consecutive linear positions starting from `p`. -/
def placedSpec (r c : Nat) (assignment : List (String × String))
    (limits : List (String × (Int × Int))) :
    List (String × Grid) → Nat → List CellRender
  | [], _ => []
  | (key, values) :: rest, p =>
    if key = "CP" then placedSpec r c assignment limits rest p
    else
      mkCell r c assignment limits p key values ::
      placedSpec r c assignment limits rest (p + 1)

/-- The hard-coded top-left `"CP"` panel of the combined figure (lines
147-153): colormap `'Greys_r'`, no explicit color-scale bounds, a colorbar, a
y-axis label and no title or x-axis label. -/
def cpCell (datas : List (String × Grid)) : CellRender :=
  { row := 0
    col := 0
    key := "CP"
    cmap := "Greys_r"
    bounds := none
    data := rotateNeg90 ((datas.lookup "CP").getD [])
    title := none
    ylabel := true
    xlabel := false
    colorbar := true }

/-- The combined-figure block of `map_series` (lines 140-189): open one
figure, build the gridspec (matplotlib rejects a zero dimension), place the
`"CP"` panel at the top-left when present (starting the running column at 1),
place the remaining elements, and save `<label>_all<extension>`. The figure
is not closed. -/
def combinedEvents (r c : Nat) (datas : List (String × Grid))
    (assignment : List (String × String))
    (limits : List (String × (Int × Int))) (label extension : String) :
    List Event × Option PyErr :=
  if r = 0 ∨ c = 0 then ([Event.openFig], some PyErr.valueError)
  else
    let cpPresent := (datas.map Prod.fst).contains "CP"
    let startEvs : List Event :=
      if cpPresent then [Event.placeCell (cpCell datas)] else []
    let startJ : Nat := if cpPresent then 1 else 0
    let placed := placeCells r c assignment limits datas 0 startJ
    match placed.2 with
    | some e => (Event.openFig :: (startEvs ++ placed.1), some e)
    | none =>
      (Event.openFig :: (startEvs ++ placed.1) ++
        [Event.saveCombined (label ++ "_all" ++ extension)], none)

/-- `map_series`, over a dataset given as an insertion-ordered dict. An empty
dataset faults at line 101 (`list(datas.values())[0]`) before anything else;
then the coordinate mesh is built from the first map's shape and the pixel
size, the colormap assignment is computed, the individual figures are saved,
and the combined figure is rendered when `figure_grid` is supplied. -/
def mapSeries (datas : List (String × Grid)) (label : String)
    (pixelSize : Int × Int) (figureGrid : Option (Nat × Nat))
    (limits : List (String × (Int × Int))) (colorMap : ColorMapArg)
    (extension : String) : PyResult :=
  match datas with
  | [] => { events := [], error := some PyErr.indexError }
  | (k0, g0) :: rest =>
    let meshEv := Event.mesh (gridShape g0) pixelSize
    match assignColorMaps colorMap (((k0, g0) :: rest).map Prod.fst) with
    | Except.error e => { events := [meshEv], error := some e }
    | Except.ok assignment =>
      let ievs := indivEvents assignment limits label extension ((k0, g0) :: rest)
      match figureGrid with
      | none => { events := meshEv :: ievs, error := none }
      | some (r, c) =>
        let combined :=
          combinedEvents r c ((k0, g0) :: rest) assignment limits label extension
        { events := meshEv :: ievs ++ combined.1, error := combined.2 }

/-- Selector for the filename of an individual per-element save event. -/
def indivSaveFile : Event → Option String
  | Event.saveIndiv f _ => some f
  | _ => none

/-- Selector for the filename of a combined-figure save event. -/
def combinedSaveFile : Event → Option String
  | Event.saveCombined f => some f
  | _ => none

/-- Selector for the filename of any save event. -/
def anySaveFile : Event → Option String
  | Event.saveIndiv f _ => some f
  | Event.saveCombined f => some f
  | _ => none

/-- Selector for the payload of an individual draw event. -/
def indivRenderOf : Event → Option IndivRender
  | Event.saveIndiv _ render => some render
  | _ => none

/-- Selector for the payload of a combined-figure panel event. -/
def cellOf : Event → Option CellRender
  | Event.placeCell cell => some cell
  | _ => none

/-- Test for a figure-open event. -/
def isOpenFig : Event → Bool
  | Event.openFig => true
  | _ => false

/-- Test for a figure-close event. -/
def isCloseFig : Event → Bool
  | Event.closeFig => true
  | _ => false

/-- Filenames of the individual per-element saves in a trace. -/
def indivSavesE (evs : List Event) : List String := evs.filterMap indivSaveFile

/-- Filenames of the combined-figure saves in a trace. -/
def combinedSavesE (evs : List Event) : List String :=
  evs.filterMap combinedSaveFile

/-- All filenames written in a trace, in order. -/
def savedFilesE (evs : List Event) : List String := evs.filterMap anySaveFile

/-- The individual per-element draws recorded in a trace. -/
def rendersE (evs : List Event) : List IndivRender :=
  evs.filterMap indivRenderOf

/-- The combined-figure panels recorded in a trace. -/
def cellsE (evs : List Event) : List CellRender := evs.filterMap cellOf

/-- Number of figures opened in a trace. -/
def countOpen (evs : List Event) : Nat := evs.countP isOpenFig

/-- Number of figures closed in a trace. -/
def countClose (evs : List Event) : Nat := evs.countP isCloseFig

/-- A placeholder panel, used only as the default of a safe list access. -/
def dummyCell : CellRender :=
  { row := 0, col := 0, key := "", cmap := "", bounds := none, data := [],
    title := none, ylabel := false, xlabel := false, colorbar := false }

/-- A concrete four-channel dataset used to exercise the combined figure. -/
def c7wDatas : List (String × Grid) :=
  [("CP", [[9]]), ("Fe", [[1]]), ("Cu", [[2]]), ("Mn", [[3]])]

/-- The combined-figure panels of a concrete 2-by-2 render of `c7wDatas`. -/
def c7wCells : List CellRender :=
  cellsE (mapSeries c7wDatas "m" (1, 1) (some (2, 2)) []
    (ColorMapArg.list ["A", "B"]) ".png").events

/-! Helper lemmas about the individual-figure phase. -/

theorem indivSavesE_indivEvents (a : List (String × String))
    (lim : List (String × (Int × Int))) (label ext : String)
    (ds : List (String × Grid)) :
    indivSavesE (indivEvents a lim label ext ds) =
      ds.map (fun p => label ++ "_" ++ p.1 ++ ext) := by
  induction ds with
  | nil => rfl
  | cons p rest ih =>
    obtain ⟨k, g⟩ := p
    simp only [indivEvents, indivSavesE, List.filterMap_cons] at ih ⊢
    simp [ih, indivSaveFile, combinedSaveFile, anySaveFile, indivRenderOf,
      cellOf, isOpenFig, isCloseFig]

theorem rendersE_indivEvents (a : List (String × String))
    (lim : List (String × (Int × Int))) (label ext : String)
    (ds : List (String × Grid)) :
    rendersE (indivEvents a lim label ext ds) =
      ds.map (fun p =>
        { key := p.1
          cmap := (a.lookup p.1).getD ""
          bounds := lim.lookup p.1
          data := rotateNeg90 p.2 : IndivRender }) := by
  induction ds with
  | nil => rfl
  | cons p rest ih =>
    obtain ⟨k, g⟩ := p
    simp only [rendersE, indivEvents, List.filterMap_cons] at ih ⊢
    simp [ih, indivSaveFile, combinedSaveFile, anySaveFile, indivRenderOf,
      cellOf, isOpenFig, isCloseFig]

theorem combinedSavesE_indivEvents (a : List (String × String))
    (lim : List (String × (Int × Int))) (label ext : String)
    (ds : List (String × Grid)) :
    combinedSavesE (indivEvents a lim label ext ds) = [] := by
  induction ds with
  | nil => rfl
  | cons p rest ih =>
    obtain ⟨k, g⟩ := p
    simp only [combinedSavesE, indivEvents, List.filterMap_cons] at ih ⊢
    simp [ih, indivSaveFile, combinedSaveFile, anySaveFile, indivRenderOf,
      cellOf, isOpenFig, isCloseFig]

theorem cellsE_indivEvents (a : List (String × String))
    (lim : List (String × (Int × Int))) (label ext : String)
    (ds : List (String × Grid)) :
    cellsE (indivEvents a lim label ext ds) = [] := by
  induction ds with
  | nil => rfl
  | cons p rest ih =>
    obtain ⟨k, g⟩ := p
    simp only [cellsE, indivEvents, List.filterMap_cons] at ih ⊢
    simp [ih, indivSaveFile, combinedSaveFile, anySaveFile, indivRenderOf,
      cellOf, isOpenFig, isCloseFig]

theorem countOpen_indivEvents (a : List (String × String))
    (lim : List (String × (Int × Int))) (label ext : String)
    (ds : List (String × Grid)) :
    countOpen (indivEvents a lim label ext ds) = ds.length := by
  induction ds with
  | nil => rfl
  | cons p rest ih =>
    obtain ⟨k, g⟩ := p
    simp only [countOpen, indivEvents, List.countP_cons] at ih ⊢
    simp [ih, indivSaveFile, combinedSaveFile, anySaveFile, indivRenderOf,
      cellOf, isOpenFig, isCloseFig]

theorem countClose_indivEvents (a : List (String × String))
    (lim : List (String × (Int × Int))) (label ext : String)
    (ds : List (String × Grid)) :
    countClose (indivEvents a lim label ext ds) = ds.length := by
  induction ds with
  | nil => rfl
  | cons p rest ih =>
    obtain ⟨k, g⟩ := p
    simp only [countClose, indivEvents, List.countP_cons] at ih ⊢
    simp [ih, indivSaveFile, combinedSaveFile, anySaveFile, indivRenderOf,
      cellOf, isOpenFig, isCloseFig]

/-! Claim theorems. -/

/-- C1 (counterexample): with `color_map=["A","B"]` and elements
["Fe","Cu","CP","Mn"], the assignment built by `map_series` does NOT give
`"CP"` the grayscale-reversed colormap `'Greys_r'`. -/
theorem c1_counterexample :
    assignColorMaps (ColorMapArg.list ["A", "B"]) ["Fe", "Cu", "CP", "Mn"] ≠
      Except.ok [("Fe", "A"), ("Cu", "B"), ("CP", "Greys_r"), ("Mn", "A")] := by
  decide

/-- C1 (amended): the assignment is {"Fe":"A","Cu":"B","CP":"Greys","Mn":"A"}
— "CP" is pinned to the plain (non-reversed) `'Greys'` colormap regardless of
cycle position and does not consume a cycle slot, so "Mn" receives "A". The
reversed `'Greys_r'` is used for "CP" only in the combined figure, where it is
hard-coded. -/
theorem c1_amended :
    assignColorMaps (ColorMapArg.list ["A", "B"]) ["Fe", "Cu", "CP", "Mn"] =
      Except.ok [("Fe", "A"), ("Cu", "B"), ("CP", "Greys"), ("Mn", "A")] := by
  decide

/-- C2 (counterexample): a `figure_grid` of (2,2) for a 1-element dataset is a
mismatched cell count, yet `map_series` raises no error at all: it proceeds
and writes the combined file. -/
theorem c2_counterexample :
    (mapSeries [("Fe", [[1]])] "map" (1, 1) (some (2, 2)) []
        (ColorMapArg.str "Greys") ".png").error = none ∧
    combinedSavesE (mapSeries [("Fe", [[1]])] "map" (1, 1) (some (2, 2)) []
        (ColorMapArg.str "Greys") ".png").events = ["map_all.png"] := by
  decide

/-- C6 (counterexample): with `limits = {"CP": (0,100)}` and a combined
figure, the "CP" panel is drawn with no explicit bounds, so its color scale is
the data range (0,5), not the (0,100) the limits table demands. -/
theorem c6_counterexample :
    (cellsE (mapSeries [("CP", [[0], [5]])] "map" (1, 1) (some (1, 1))
        [("CP", (0, 100))] (ColorMapArg.str "Greys") ".png").events).map
      (fun cell => effectiveBounds cell.bounds cell.data) = [(0, 5)] ∧
    List.lookup "CP" [("CP", ((0 : Int), (100 : Int)))] = some (0, 100) := by
  decide

/-- C8 (counterexample): a successful `map_series` call with a `figure_grid`
opens two figures but closes only one — the combined figure is never
released. -/
theorem c8_counterexample :
    (mapSeries [("Fe", [[1]])] "m" (1, 1) (some (1, 1)) []
        (ColorMapArg.str "G") ".png").error = none ∧
    countOpen (mapSeries [("Fe", [[1]])] "m" (1, 1) (some (1, 1)) []
        (ColorMapArg.str "G") ".png").events = 2 ∧
    countClose (mapSeries [("Fe", [[1]])] "m" (1, 1) (some (1, 1)) []
        (ColorMapArg.str "G") ".png").events = 1 := by
  decide

/-- C9 (confirmed): `map_series` is deterministic — two calls with identical
dataset, label, pixel size, figure grid, limits, colormap argument and
extension produce identical traces, in particular the same output filenames
with identical content. -/
theorem c9_confirmed (d d2 : List (String × Grid)) (l l2 : String)
    (ps ps2 : Int × Int) (g g2 : Option (Nat × Nat))
    (lim lim2 : List (String × (Int × Int))) (cm cm2 : ColorMapArg)
    (ext ext2 : String)
    (h : (d, l, ps, g, lim, cm, ext) = (d2, l2, ps2, g2, lim2, cm2, ext2)) :
    mapSeries d l ps g lim cm ext = mapSeries d2 l2 ps2 g2 lim2 cm2 ext2 ∧
    savedFilesE (mapSeries d l ps g lim cm ext).events =
      savedFilesE (mapSeries d2 l2 ps2 g2 lim2 cm2 ext2).events := by
  simp only [Prod.mk.injEq] at h
  obtain ⟨rfl, rfl, rfl, rfl, rfl, rfl, rfl⟩ := h
  exact ⟨rfl, rfl⟩

/-- C9 witness. -/
theorem c9_witness :
    mapSeries [("Fe", [[1]])] "m" (1, 1) none [] (ColorMapArg.str "G") ".png" =
      mapSeries [("Fe", [[1]])] "m" (1, 1) none [] (ColorMapArg.str "G") ".png" ∧
    savedFilesE (mapSeries [("Fe", [[1]])] "m" (1, 1) none []
        (ColorMapArg.str "G") ".png").events =
      savedFilesE (mapSeries [("Fe", [[1]])] "m" (1, 1) none []
        (ColorMapArg.str "G") ".png").events :=
  c9_confirmed [("Fe", [[1]])] [("Fe", [[1]])] "m" "m" (1, 1) (1, 1) none none
    [] [] (ColorMapArg.str "G") (ColorMapArg.str "G") ".png" ".png" rfl

/-- C10 (confirmed): on the empty dataset `map_series` faults with an
index-out-of-range error at `list(datas.values())[0]` — before the mesh, the
colormap assignment, or any file write: the trace is empty. -/
theorem c10_confirmed (label : String) (ps : Int × Int)
    (g : Option (Nat × Nat)) (lim : List (String × (Int × Int)))
    (cm : ColorMapArg) (ext : String) :
    mapSeries [] label ps g lim cm ext =
      { events := [], error := some PyErr.indexError } ∧
    savedFilesE (mapSeries [] label ps g lim cm ext).events = [] :=
  ⟨rfl, rfl⟩

/-- C4 (confirmed): without `figure_grid`, a successful `map_series` call on a
non-empty dataset saves exactly one individual file per element, named
`<label>_<element><extension>`, in dataset order, and no combined file. -/
theorem c4_confirmed (datas : List (String × Grid)) (label : String)
    (ps : Int × Int) (lim : List (String × (Int × Int))) (cm : ColorMapArg)
    (ext : String) (hne : datas ≠ [])
    (ha : ∃ a, assignColorMaps cm (datas.map Prod.fst) = Except.ok a) :
    (mapSeries datas label ps none lim cm ext).error = none ∧
    indivSavesE (mapSeries datas label ps none lim cm ext).events =
      datas.map (fun p => label ++ "_" ++ p.1 ++ ext) ∧
    combinedSavesE (mapSeries datas label ps none lim cm ext).events = [] := by
  obtain ⟨a, ha⟩ := ha
  cases datas with
  | nil => exact absurd rfl hne
  | cons p rest =>
    obtain ⟨k0, g0⟩ := p
    simp only [List.map_cons] at ha
    have hev : (mapSeries ((k0, g0) :: rest) label ps none lim cm ext).events =
        Event.mesh (gridShape g0) ps ::
          indivEvents a lim label ext ((k0, g0) :: rest) := by
      simp [mapSeries, ha]
    refine ⟨by simp [mapSeries, ha], ?_, ?_⟩
    · rw [hev]
      exact indivSavesE_indivEvents a lim label ext ((k0, g0) :: rest)
    · rw [hev]
      exact combinedSavesE_indivEvents a lim label ext ((k0, g0) :: rest)

/-- C4 witness. -/
theorem c4_witness :
    ((mapSeries [("Fe", [[1]]), ("Cu", [[2]])] "m" (1, 1) none []
        (ColorMapArg.str "G") ".png").error = none ∧
      indivSavesE (mapSeries [("Fe", [[1]]), ("Cu", [[2]])] "m" (1, 1) none []
          (ColorMapArg.str "G") ".png").events =
        [("Fe", ([[1]] : Grid)), ("Cu", [[2]])].map
          (fun p => "m" ++ "_" ++ p.1 ++ ".png") ∧
      combinedSavesE (mapSeries [("Fe", [[1]]), ("Cu", [[2]])] "m" (1, 1) none []
          (ColorMapArg.str "G") ".png").events = []) :=
  c4_confirmed [("Fe", [[1]]), ("Cu", [[2]])] "m" (1, 1) []
    (ColorMapArg.str "G") ".png" (by decide)
    ⟨[("Fe", "G"), ("Cu", "G")], rfl⟩

/-- Skipping a data file with an unknown index token leaves the ingestion
loop unchanged, wherever the file sits in the listing. -/
theorem buildDatas_skip (elements : List (String × String))
    (load : String → Grid) (f : String)
    (h : elements.lookup (dataIndex f) = none) :
    ∀ (m1 m2 : List String) (acc : List (String × Grid)),
      buildDatas elements load (m1 ++ f :: m2) acc =
        buildDatas elements load (m1 ++ m2) acc := by
  intro m1
  induction m1 with
  | nil =>
    intro m2 acc
    simp [buildDatas, h]
  | cons x rest ih =>
    intro m2 acc
    simp only [List.cons_append, buildDatas]
    cases hx : elements.lookup (dataIndex x) <;> simp only [hx] <;> exact ih _ _

/-- C3 (confirmed): with metadata files mapping index "01" to "Fe" and "02"
to "Cr", data files with leading index tokens "01" and "02", and
`exclude=["Cr"]`, `read_data` returns a dataset whose only key is "Fe": the
excluded label never enters the index mapping, so its data file has no match
and is dropped. -/
theorem c3_confirmed (m1 m2 f1 f2 : String) (load : String → Grid)
    (hm1L : metaLabel m1 = Except.ok "Fe")
    (hm1I : metaIndex m1 = Except.ok "01")
    (hm2L : metaLabel m2 = Except.ok "Cr")
    (hf1 : dataIndex f1 = "01") (hf2 : dataIndex f2 = "02") :
    readData [f1, f2] [m1, m2] ["Cr"] load = Except.ok [("Fe", load f1)] := by
  simp [readData, buildElements, hm1L, hm1I, hm2L, buildDatas, hf1, hf2,
    dictInsert, List.lookup, Except.map]

/-- C3 witness. -/
theorem c3_witness :
    metaLabel "d\\01.Fe.pm" = Except.ok "Fe" ∧
    metaIndex "d\\01.Fe.pm" = Except.ok "01" ∧
    metaLabel "d\\02.Cr.pm" = Except.ok "Cr" ∧
    dataIndex "01_x.txt" = "01" ∧ dataIndex "02_x.txt" = "02" ∧
    readData ["01_x.txt", "02_x.txt"] ["d\\01.Fe.pm", "d\\02.Cr.pm"] ["Cr"]
        (fun _ => [[7]]) = Except.ok [("Fe", [[7]])] :=
  ⟨by decide, by decide, by decide, by decide, by decide,
    c3_confirmed "d\\01.Fe.pm" "d\\02.Cr.pm" "01_x.txt" "02_x.txt"
      (fun _ => [[7]]) (by decide) (by decide) (by decide) (by decide)
      (by decide)⟩

/-- C5 (confirmed): a data file whose leading index token has no entry in the
metadata-derived mapping is silently skipped by `read_data` — removing it
from the listing changes nothing: no error, no extra key, and every other
matched file still loaded. -/
theorem c5_confirmed (m1 m2 : List String) (f : String)
    (pmFiles exclude : List String) (load : String → Grid)
    (elements : List (String × String))
    (hels : buildElements exclude pmFiles [] = Except.ok elements)
    (hnomatch : elements.lookup (dataIndex f) = none) :
    readData (m1 ++ f :: m2) pmFiles exclude load =
      readData (m1 ++ m2) pmFiles exclude load := by
  simp only [readData, hels, Except.map]
  exact congrArg Except.ok (buildDatas_skip elements load f hnomatch m1 m2 [])

/-- C5 witness. -/
theorem c5_witness :
    buildElements ["Cr"] ["d\\01.Fe.pm"] [] = Except.ok [("01", "Fe")] ∧
    List.lookup (dataIndex "99_y.txt") [("01", "Fe")] = none ∧
    readData (["01_x.txt"] ++ "99_y.txt" :: []) ["d\\01.Fe.pm"] ["Cr"]
        (fun _ => [[3]]) =
      readData (["01_x.txt"] ++ []) ["d\\01.Fe.pm"] ["Cr"] (fun _ => [[3]]) :=
  ⟨by decide, by decide,
    c5_confirmed ["01_x.txt"] [] "99_y.txt" ["d\\01.Fe.pm"] ["Cr"]
      (fun _ => [[3]]) [("01", "Fe")] (by decide) (by decide)⟩

/-! Lemmas about the combined-figure placement loop. -/

theorem nonCP_cons_cp (g : Grid) (rest : List (String × Grid)) :
    nonCP (("CP", g) :: rest) = nonCP rest := by
  simp [nonCP]

theorem nonCP_cons (k : String) (g : Grid) (rest : List (String × Grid))
    (h : k ≠ "CP") : nonCP ((k, g) :: rest) = (k, g) :: nonCP rest := by
  simp [nonCP, h]

theorem nonCP_eq_self (datas : List (String × Grid))
    (h : "CP" ∉ datas.map Prod.fst) : nonCP datas = datas := by
  induction datas with
  | nil => rfl
  | cons p rest ih =>
    obtain ⟨k, g⟩ := p
    simp only [List.map_cons, List.mem_cons] at h
    push_neg at h
    rw [nonCP_cons k g rest (fun hk => h.1 hk.symm), ih h.2]

theorem nonCP_length_cp (datas : List (String × Grid))
    (hn : (datas.map Prod.fst).Nodup) (hcp : "CP" ∈ datas.map Prod.fst) :
    (nonCP datas).length + 1 = datas.length := by
  induction datas with
  | nil => simp at hcp
  | cons p rest ih =>
    obtain ⟨k, g⟩ := p
    simp only [List.map_cons, List.nodup_cons] at hn
    simp only [List.map_cons, List.mem_cons] at hcp
    by_cases hk : k = "CP"
    · subst hk
      rw [nonCP_cons_cp, nonCP_eq_self rest hn.1]
      simp
    · rw [nonCP_cons k g rest hk]
      rcases hcp with h1 | h2
      · exact absurd h1.symm hk
      · simpa using ih hn.2 h2

theorem placeCells_nonCP_nil (r c : Nat) (a : List (String × String))
    (lim : List (String × (Int × Int))) :
    ∀ (rest : List (String × Grid)) (i j : Nat), nonCP rest = [] →
      placeCells r c a lim rest i j = ([], none) := by
  intro rest
  induction rest with
  | nil => intro i j _; rfl
  | cons p rest ih =>
    intro i j h
    obtain ⟨k, g⟩ := p
    by_cases hk : k = "CP"
    · subst hk
      rw [nonCP_cons_cp] at h
      simpa [placeCells] using ih i j h
    · rw [nonCP_cons k g rest hk] at h
      exact absurd h (by simp)

/-- When the remaining non-"CP" elements fit inside the grid, the placement
loop succeeds and produces exactly the row-major placement specification. -/
theorem placeCells_ok (r c : Nat) (a : List (String × String))
    (lim : List (String × (Int × Int))) :
    ∀ (rest : List (String × Grid)) (i j : Nat), j < c →
      i * c + j + (nonCP rest).length ≤ r * c →
      placeCells r c a lim rest i j =
        ((placedSpec r c a lim rest (i * c + j)).map Event.placeCell, none) := by
  intro rest
  induction rest with
  | nil =>
    intro i j _ _
    simp [placeCells, placedSpec]
  | cons p rest ih =>
    intro i j hjc hle
    obtain ⟨k, g⟩ := p
    have hc : 0 < c := Nat.lt_of_le_of_lt (Nat.zero_le j) hjc
    by_cases hk : k = "CP"
    · subst hk
      rw [nonCP_cons_cp] at hle
      calc placeCells r c a lim (("CP", g) :: rest) i j
          = placeCells r c a lim rest i j := by simp [placeCells]
        _ = ((placedSpec r c a lim rest (i * c + j)).map Event.placeCell, none) :=
            ih i j hjc hle
        _ = ((placedSpec r c a lim (("CP", g) :: rest) (i * c + j)).map
              Event.placeCell, none) := by simp [placedSpec]
    · rw [nonCP_cons k g rest hk, List.length_cons] at hle
      have hlt : i * c + j < r * c := by omega
      have hir : i < r := by
        by_contra hge
        push_neg at hge
        have hmul : r * c ≤ i * c := Nat.mul_le_mul_right c hge
        omega
      have hdiv : (i * c + j) / c = i := by
        rw [Nat.add_comm, Nat.add_mul_div_right _ _ hc, Nat.div_eq_of_lt hjc]
        omega
      have hmod : (i * c + j) % c = j := by
        rw [Nat.add_comm, Nat.add_mul_mod_self_right]
        exact Nat.mod_eq_of_lt hjc
      by_cases hm : (j + 1) % c = 0
      · have hjc1 : j + 1 = c := by
          have hdvd : c ∣ (j + 1) := Nat.dvd_of_mod_eq_zero hm
          have hlee : c ≤ j + 1 := Nat.le_of_dvd (Nat.succ_pos j) hdvd
          omega
        have hmul1 : (i + 1) * c = i * c + c := by ring
        have ihh := ih (i + 1) 0 hc (by omega)
        have hpos : (i + 1) * c + 0 = i * c + j + 1 := by omega
        rw [hpos] at ihh
        simp only [placeCells, placedSpec, hk, hm, hir, hjc, if_neg, if_pos,
          if_false, if_true, and_true, true_and, ite_true, ite_false,
          reduceIte, ihh]
        simp [mkCell, hdiv, hmod, ihh]
      · have hjlt : j + 1 < c := by
          rcases Nat.lt_or_ge (j + 1) c with h | h
          · exact h
          · have : j + 1 = c := by omega
            rw [this, Nat.mod_self] at hm
            exact absurd rfl hm
        have ihh := ih i (j + 1) hjlt (by omega)
        have hpos : i * c + (j + 1) = i * c + j + 1 := by omega
        rw [hpos] at ihh
        simp only [placeCells, placedSpec, hk, hm, hir, hjc, if_neg, if_pos,
          if_false, if_true, and_true, true_and, ite_true, ite_false,
          reduceIte, ihh]
        simp [mkCell, hdiv, hmod, ihh]

/-- The placement loop run from the position after the last successful
placement: when the loop runs out of grid cells it faults with the opaque
`IndexError` of `gs[i, j]`. -/
theorem placeCells_fail (r c : Nat) (a : List (String × String))
    (lim : List (String × (Int × Int))) :
    ∀ (rest : List (String × Grid)) (i j : Nat), 0 < c → j ≤ c →
      i * c + j ≤ r * c → r * c < i * c + j + (nonCP rest).length →
      (placeCells r c a lim rest i j).2 = some PyErr.indexError := by
  intro rest
  induction rest with
  | nil =>
    intro i j _ _ hle hgt
    simp [nonCP] at hgt
    omega
  | cons p rest ih =>
    intro i j hc hjc hle hgt
    obtain ⟨k, g⟩ := p
    by_cases hk : k = "CP"
    · subst hk
      rw [nonCP_cons_cp] at hgt
      simpa [placeCells] using ih i j hc hjc hle hgt
    · rw [nonCP_cons k g rest hk, List.length_cons] at hgt
      by_cases hbr : i < r ∧ j < c
      · obtain ⟨hir, hjlt⟩ := hbr
        have hlt2 : i * c + j < r * c := by
          have h1 : i + 1 ≤ r := hir
          have h2 : (i + 1) * c ≤ r * c := Nat.mul_le_mul_right c h1
          have h3 : (i + 1) * c = i * c + c := by ring
          omega
        by_cases hm : (j + 1) % c = 0
        · have hjc1 : j + 1 = c := by
            have hdvd : c ∣ (j + 1) := Nat.dvd_of_mod_eq_zero hm
            have hlee : c ≤ j + 1 := Nat.le_of_dvd (Nat.succ_pos j) hdvd
            omega
          have hmul1 : (i + 1) * c = i * c + c := by ring
          have ihh := ih (i + 1) 0 hc (Nat.zero_le c) (by omega) (by omega)
          simpa [placeCells, hk, hir, hjlt, hm] using ihh
        · have ihh := ih i (j + 1) hc (by omega) (by omega) (by omega)
          simpa [placeCells, hk, hir, hjlt, hm] using ihh
      · simp [placeCells, hk, hbr]

/-- Success of the placement loop fully determines its output: the row-major
placement specification. -/
theorem placeCells_ok_shape (r c : Nat) (a : List (String × String))
    (lim : List (String × (Int × Int))) :
    ∀ (rest : List (String × Grid)) (i j : Nat), 0 < c → j ≤ c →
      (placeCells r c a lim rest i j).2 = none →
      (placeCells r c a lim rest i j).1 =
        (placedSpec r c a lim rest (i * c + j)).map Event.placeCell := by
  intro rest
  induction rest with
  | nil =>
    intro i j _ _ _
    simp [placeCells, placedSpec]
  | cons p rest ih =>
    intro i j hc hjc hok
    obtain ⟨k, g⟩ := p
    by_cases hk : k = "CP"
    · subst hk
      rw [show placeCells r c a lim (("CP", g) :: rest) i j =
            placeCells r c a lim rest i j from by simp [placeCells]] at hok ⊢
      rw [show placedSpec r c a lim (("CP", g) :: rest) (i * c + j) =
            placedSpec r c a lim rest (i * c + j) from by simp [placedSpec]]
      exact ih i j hc hjc hok
    · by_cases hbr : i < r ∧ j < c
      · obtain ⟨hir, hjlt⟩ := hbr
        have hdiv : (i * c + j) / c = i := by
          rw [Nat.add_comm, Nat.add_mul_div_right _ _ hc, Nat.div_eq_of_lt hjlt]
          omega
        have hmod : (i * c + j) % c = j := by
          rw [Nat.add_comm, Nat.add_mul_mod_self_right]
          exact Nat.mod_eq_of_lt hjlt
        by_cases hm : (j + 1) % c = 0
        · have hok2 : (placeCells r c a lim rest (i + 1) 0).2 = none := by
            simpa [placeCells, hk, hir, hjlt, hm] using hok
          have ihh := ih (i + 1) 0 hc (Nat.zero_le c) hok2
          have hpos : (i + 1) * c + 0 = i * c + j + 1 := by
            have hjc1 : j + 1 = c := by
              have hdvd : c ∣ (j + 1) := Nat.dvd_of_mod_eq_zero hm
              have hlee : c ≤ j + 1 := Nat.le_of_dvd (Nat.succ_pos j) hdvd
              omega
            have hmul1 : (i + 1) * c = i * c + c := by ring
            omega
          rw [hpos] at ihh
          simp only [placeCells, placedSpec, hk, hm, hir, hjlt, if_neg, if_pos,
            if_false, if_true, and_true, true_and, ite_true, ite_false,
            reduceIte, ihh]
          simp [mkCell, hdiv, hmod, ihh]
        · have hok2 : (placeCells r c a lim rest i (j + 1)).2 = none := by
            simpa [placeCells, hk, hir, hjlt, hm] using hok
          have ihh := ih i (j + 1) hc (by omega) hok2
          have hpos : i * c + (j + 1) = i * c + j + 1 := by omega
          rw [hpos] at ihh
          simp only [placeCells, placedSpec, hk, hm, hir, hjlt, if_neg, if_pos,
            if_false, if_true, and_true, true_and, ite_true, ite_false,
            reduceIte, ihh]
          simp [mkCell, hdiv, hmod, ihh]
      · exfalso
        simp [placeCells, hk, hbr] at hok

theorem placedSpec_keys (r c : Nat) (a : List (String × String))
    (lim : List (String × (Int × Int))) :
    ∀ (rest : List (String × Grid)) (p : Nat),
      (placedSpec r c a lim rest p).map CellRender.key =
        (nonCP rest).map Prod.fst := by
  intro rest
  induction rest with
  | nil => intro p; rfl
  | cons q rest ih =>
    intro p
    obtain ⟨k, g⟩ := q
    by_cases hk : k = "CP"
    · subst hk
      rw [nonCP_cons_cp]
      simpa [placedSpec] using ih p
    · rw [nonCP_cons k g rest hk]
      simp [placedSpec, hk, mkCell, ih]

theorem placedSpec_getD (r c : Nat) (a : List (String × String))
    (lim : List (String × (Int × Int))) :
    ∀ (rest : List (String × Grid)) (p t : Nat),
      t < (placedSpec r c a lim rest p).length →
      ((placedSpec r c a lim rest p).getD t dummyCell).row = (p + t) / c ∧
      ((placedSpec r c a lim rest p).getD t dummyCell).col = (p + t) % c := by
  intro rest
  induction rest with
  | nil =>
    intro p t ht
    simp [placedSpec] at ht
  | cons q rest ih =>
    intro p t ht
    obtain ⟨k, g⟩ := q
    by_cases hk : k = "CP"
    · subst hk
      rw [show placedSpec r c a lim (("CP", g) :: rest) p =
            placedSpec r c a lim rest p from by simp [placedSpec]] at ht ⊢
      exact ih p t ht
    · rw [show placedSpec r c a lim ((k, g) :: rest) p =
            mkCell r c a lim p k g :: placedSpec r c a lim rest (p + 1) from by
          simp [placedSpec, hk]] at ht ⊢
      cases t with
      | zero => simp [List.getD, mkCell]
      | succ t =>
        have ht2 : t < (placedSpec r c a lim rest (p + 1)).length := by
          simpa using ht
        have harith : p + 1 + t = p + (t + 1) := by omega
        have := ih (p + 1) t ht2
        rw [harith] at this
        simpa [List.getD] using this

theorem placedSpec_mem (r c : Nat) (a : List (String × String))
    (lim : List (String × (Int × Int))) :
    ∀ (rest : List (String × Grid)) (p : Nat) (cell : CellRender),
      cell ∈ placedSpec r c a lim rest p →
      cell.colorbar = true ∧ cell.key ≠ "CP" ∧
      cell.bounds = lim.lookup cell.key ∧
      (cell.ylabel = true → cell.col = 0) ∧
      (cell.xlabel = true → cell.row + 1 = r) := by
  intro rest
  induction rest with
  | nil =>
    intro p cell h
    simp [placedSpec] at h
  | cons q rest ih =>
    intro p cell h
    obtain ⟨k, g⟩ := q
    by_cases hk : k = "CP"
    · subst hk
      rw [show placedSpec r c a lim (("CP", g) :: rest) p =
            placedSpec r c a lim rest p from by simp [placedSpec]] at h
      exact ih p cell h
    · rw [show placedSpec r c a lim ((k, g) :: rest) p =
            mkCell r c a lim p k g :: placedSpec r c a lim rest (p + 1) from by
          simp [placedSpec, hk]] at h
      rcases List.mem_cons.mp h with h1 | h2
      · subst h1
        exact ⟨rfl, hk, rfl, fun hy => of_decide_eq_true hy,
          fun hx => of_decide_eq_true hx⟩
      · exact ih (p + 1) cell h2

theorem cellsE_map_placeCell (cells : List CellRender) :
    cellsE (cells.map Event.placeCell) = cells := by
  induction cells with
  | nil => rfl
  | cons x rest ih =>
    simp only [List.map_cons, cellsE, List.filterMap_cons] at ih ⊢
    simp [ih, indivSaveFile, combinedSaveFile, anySaveFile, indivRenderOf,
      cellOf, isOpenFig, isCloseFig]

theorem combinedSavesE_map_placeCell (cells : List CellRender) :
    combinedSavesE (cells.map Event.placeCell) = [] := by
  induction cells with
  | nil => rfl
  | cons x rest ih =>
    simp only [List.map_cons, combinedSavesE, List.filterMap_cons] at ih ⊢
    simp [ih, indivSaveFile, combinedSaveFile, anySaveFile, indivRenderOf,
      cellOf, isOpenFig, isCloseFig]

/-- The placement loop emits only `placeCell` events: no saves and no figure
opens or closes, on the success path and the failure path alike. -/
theorem placeCells_saves (r c : Nat) (a : List (String × String))
    (lim : List (String × (Int × Int))) :
    ∀ (rest : List (String × Grid)) (i j : Nat),
      combinedSavesE (placeCells r c a lim rest i j).1 = [] ∧
      indivSavesE (placeCells r c a lim rest i j).1 = [] ∧
      countOpen (placeCells r c a lim rest i j).1 = 0 ∧
      countClose (placeCells r c a lim rest i j).1 = 0 := by
  intro rest
  induction rest with
  | nil => intro i j; exact ⟨rfl, rfl, rfl, rfl⟩
  | cons q rest ih =>
    intro i j
    obtain ⟨k, g⟩ := q
    by_cases hk : k = "CP"
    · subst hk
      simpa [placeCells] using ih i j
    · by_cases hbr : i < r ∧ j < c
      · obtain ⟨hir, hjlt⟩ := hbr
        by_cases hm : (j + 1) % c = 0
        · have := ih (i + 1) 0
          simpa [placeCells, hk, hir, hjlt, hm, combinedSavesE, indivSavesE,
            countOpen, countClose, List.filterMap_cons, List.countP_cons,
            indivSaveFile, combinedSaveFile, isOpenFig, isCloseFig]
            using this
        · have := ih i (j + 1)
          simpa [placeCells, hk, hir, hjlt, hm, combinedSavesE, indivSavesE,
            countOpen, countClose, List.filterMap_cons, List.countP_cons,
            indivSaveFile, combinedSaveFile, isOpenFig, isCloseFig]
            using this
      · simp [placeCells, hk, hbr, combinedSavesE, indivSavesE, countOpen,
          countClose, indivSaveFile, combinedSaveFile, isOpenFig, isCloseFig]

/-- Every panel the placement loop emits carries its `limits` entry as its
explicit bounds, and is never the "CP" panel. -/
theorem placeCells_cells_mem (r c : Nat) (a : List (String × String))
    (lim : List (String × (Int × Int))) :
    ∀ (rest : List (String × Grid)) (i j : Nat) (cell : CellRender),
      cell ∈ cellsE (placeCells r c a lim rest i j).1 →
      cell.key ≠ "CP" ∧ cell.bounds = lim.lookup cell.key := by
  intro rest
  induction rest with
  | nil =>
    intro i j cell h
    simp [placeCells, cellsE, cellOf] at h
  | cons q rest ih =>
    intro i j cell h
    obtain ⟨k, g⟩ := q
    by_cases hk : k = "CP"
    · subst hk
      rw [show placeCells r c a lim (("CP", g) :: rest) i j =
            placeCells r c a lim rest i j from by simp [placeCells]] at h
      exact ih i j cell h
    · by_cases hbr : i < r ∧ j < c
      · obtain ⟨hir, hjlt⟩ := hbr
        by_cases hm : (j + 1) % c = 0
        · simp only [placeCells, hk, hir, hjlt, hm, if_neg, if_pos, if_false,
            if_true, and_true, true_and, ite_true, ite_false, reduceIte,
            cellsE, cellOf, List.filterMap_cons] at h
          rcases List.mem_cons.mp h with h1 | h2
          · subst h1
            exact ⟨hk, rfl⟩
          · exact ih (i + 1) 0 cell h2
        · simp only [placeCells, hk, hir, hjlt, hm, if_neg, if_pos, if_false,
            if_true, and_true, true_and, ite_true, ite_false, reduceIte,
            cellsE, cellOf, List.filterMap_cons] at h
          rcases List.mem_cons.mp h with h1 | h2
          · subst h1
            exact ⟨hk, rfl⟩
          · exact ih i (j + 1) cell h2
      · simp [placeCells, hk, hbr, cellsE, cellOf] at h

theorem cellsE_nil : cellsE [] = [] := rfl

theorem cellsE_cons_open (evs : List Event) :
    cellsE (Event.openFig :: evs) = cellsE evs := by
  simp [cellsE, cellOf]

theorem cellsE_cons_place (cell : CellRender) (evs : List Event) :
    cellsE (Event.placeCell cell :: evs) = cell :: cellsE evs := by
  simp [cellsE, cellOf]

theorem cellsE_cons_saveC (f : String) (evs : List Event) :
    cellsE (Event.saveCombined f :: evs) = cellsE evs := by
  simp [cellsE, cellOf]

theorem cellsE_cons_mesh (sh : Nat × Nat) (psz : Int × Int)
    (evs : List Event) : cellsE (Event.mesh sh psz :: evs) = cellsE evs := by
  simp [cellsE, cellOf]

theorem cellsE_append (l1 l2 : List Event) :
    cellsE (l1 ++ l2) = cellsE l1 ++ cellsE l2 := by
  simp [cellsE]

theorem rendersE_cons_mesh (sh : Nat × Nat) (psz : Int × Int)
    (evs : List Event) : rendersE (Event.mesh sh psz :: evs) = rendersE evs := by
  simp [rendersE, indivRenderOf]

theorem rendersE_append (l1 l2 : List Event) :
    rendersE (l1 ++ l2) = rendersE l1 ++ rendersE l2 := by
  simp [rendersE]

theorem combinedSavesE_append (l1 l2 : List Event) :
    combinedSavesE (l1 ++ l2) = combinedSavesE l1 ++ combinedSavesE l2 := by
  simp [combinedSavesE]

/-- Every event the placement loop emits is a panel placement. -/
theorem placeCells_all_place (r c : Nat) (a : List (String × String))
    (lim : List (String × (Int × Int))) :
    ∀ (rest : List (String × Grid)) (i j : Nat),
      ∀ e ∈ (placeCells r c a lim rest i j).1, ∃ cell, e = Event.placeCell cell := by
  intro rest
  induction rest with
  | nil =>
    intro i j e he
    simp [placeCells] at he
  | cons q rest ih =>
    intro i j e he
    obtain ⟨k, g⟩ := q
    by_cases hk : k = "CP"
    · subst hk
      rw [show placeCells r c a lim (("CP", g) :: rest) i j =
            placeCells r c a lim rest i j from by simp [placeCells]] at he
      exact ih i j e he
    · by_cases hbr : i < r ∧ j < c
      · obtain ⟨hir, hjlt⟩ := hbr
        by_cases hm : (j + 1) % c = 0
        · simp only [placeCells, hk, hir, hjlt, hm, if_neg, if_pos, if_false,
            if_true, and_true, true_and, ite_true, ite_false, reduceIte] at he
          rcases List.mem_cons.mp he with h1 | h2
          · exact ⟨_, h1⟩
          · exact ih (i + 1) 0 e h2
        · simp only [placeCells, hk, hir, hjlt, hm, if_neg, if_pos, if_false,
            if_true, and_true, true_and, ite_true, ite_false, reduceIte] at he
          rcases List.mem_cons.mp he with h1 | h2
          · exact ⟨_, h1⟩
          · exact ih i (j + 1) e h2
      · simp [placeCells, hk, hbr] at he

theorem rendersE_placeCells (r c : Nat) (a : List (String × String))
    (lim : List (String × (Int × Int))) (rest : List (String × Grid))
    (i j : Nat) : rendersE (placeCells r c a lim rest i j).1 = [] := by
  rw [rendersE, List.filterMap_eq_nil_iff]
  intro e he
  obtain ⟨cell, rfl⟩ := placeCells_all_place r c a lim rest i j e he
  rfl

/-- Shape of the combined-figure block when the gridspec is rejected. -/
theorem combinedEvents_guard (r c : Nat) (datas : List (String × Grid))
    (a : List (String × String)) (lim : List (String × (Int × Int)))
    (label ext : String) (hg : r = 0 ∨ c = 0) :
    combinedEvents r c datas a lim label ext =
      ([Event.openFig], some PyErr.valueError) := by
  rw [combinedEvents, if_pos hg]

/-- Shape of the combined-figure block on success with a "CP" channel. -/
theorem combinedEvents_cp_ok (r c : Nat) (datas : List (String × Grid))
    (a : List (String × String)) (lim : List (String × (Int × Int)))
    (label ext : String) (hg : ¬(r = 0 ∨ c = 0))
    (hcp : (datas.map Prod.fst).contains "CP" = true)
    (hres : (placeCells r c a lim datas 0 1).2 = none) :
    combinedEvents r c datas a lim label ext =
      (Event.openFig :: ([Event.placeCell (cpCell datas)] ++
        (placeCells r c a lim datas 0 1).1) ++
        [Event.saveCombined (label ++ "_all" ++ ext)], none) := by
  rw [combinedEvents, if_neg hg]
  simp only [hcp, if_true, ite_true, reduceIte]
  rw [hres]

/-- Shape of the combined-figure block on failure with a "CP" channel. -/
theorem combinedEvents_cp_err (r c : Nat) (datas : List (String × Grid))
    (a : List (String × String)) (lim : List (String × (Int × Int)))
    (label ext : String) (e : PyErr) (hg : ¬(r = 0 ∨ c = 0))
    (hcp : (datas.map Prod.fst).contains "CP" = true)
    (hres : (placeCells r c a lim datas 0 1).2 = some e) :
    combinedEvents r c datas a lim label ext =
      (Event.openFig :: ([Event.placeCell (cpCell datas)] ++
        (placeCells r c a lim datas 0 1).1), some e) := by
  rw [combinedEvents, if_neg hg]
  simp only [hcp, if_true, ite_true, reduceIte]
  rw [hres]

/-- Shape of the combined-figure block on success without a "CP" channel. -/
theorem combinedEvents_nocp_ok (r c : Nat) (datas : List (String × Grid))
    (a : List (String × String)) (lim : List (String × (Int × Int)))
    (label ext : String) (hg : ¬(r = 0 ∨ c = 0))
    (hcp : (datas.map Prod.fst).contains "CP" = false)
    (hres : (placeCells r c a lim datas 0 0).2 = none) :
    combinedEvents r c datas a lim label ext =
      (Event.openFig :: ([] ++ (placeCells r c a lim datas 0 0).1) ++
        [Event.saveCombined (label ++ "_all" ++ ext)], none) := by
  rw [combinedEvents, if_neg hg]
  simp only [hcp, if_true, if_false, ite_true, ite_false, reduceIte,
    Bool.false_eq_true]
  rw [hres]

/-- Shape of the combined-figure block on failure without a "CP" channel. -/
theorem combinedEvents_nocp_err (r c : Nat) (datas : List (String × Grid))
    (a : List (String × String)) (lim : List (String × (Int × Int)))
    (label ext : String) (e : PyErr) (hg : ¬(r = 0 ∨ c = 0))
    (hcp : (datas.map Prod.fst).contains "CP" = false)
    (hres : (placeCells r c a lim datas 0 0).2 = some e) :
    combinedEvents r c datas a lim label ext =
      (Event.openFig :: ([] ++ (placeCells r c a lim datas 0 0).1), some e) := by
  rw [combinedEvents, if_neg hg]
  simp only [hcp, if_true, if_false, ite_true, ite_false, reduceIte,
    Bool.false_eq_true]
  rw [hres]

/-- The combined-figure block opens exactly one figure and closes none, on
every path. -/
theorem combinedEvents_counts (r c : Nat) (datas : List (String × Grid))
    (a : List (String × String)) (lim : List (String × (Int × Int)))
    (label ext : String) :
    List.countP isOpenFig (combinedEvents r c datas a lim label ext).1 = 1 ∧
    List.countP isCloseFig (combinedEvents r c datas a lim label ext).1 = 0 := by
  by_cases hg : r = 0 ∨ c = 0
  · rw [combinedEvents_guard r c datas a lim label ext hg]
    simp [isOpenFig, isCloseFig]
  · by_cases hcp : (datas.map Prod.fst).contains "CP"
    · have hs := placeCells_saves r c a lim datas 0 1
      have ho : List.countP isOpenFig (placeCells r c a lim datas 0 1).1 = 0 :=
        hs.2.2.1
      have hc2 : List.countP isCloseFig (placeCells r c a lim datas 0 1).1 = 0 :=
        hs.2.2.2
      cases hres : (placeCells r c a lim datas 0 1).2 with
      | none =>
        rw [combinedEvents_cp_ok r c datas a lim label ext hg hcp hres]
        simp [List.countP_cons, List.countP_append, isOpenFig, isCloseFig, ho,
          hc2]
      | some e =>
        rw [combinedEvents_cp_err r c datas a lim label ext e hg hcp hres]
        simp [List.countP_cons, List.countP_append, isOpenFig, isCloseFig, ho,
          hc2]
    · have hcp2 : (datas.map Prod.fst).contains "CP" = false := by
        simpa using hcp
      have hs := placeCells_saves r c a lim datas 0 0
      have ho : List.countP isOpenFig (placeCells r c a lim datas 0 0).1 = 0 :=
        hs.2.2.1
      have hc2 : List.countP isCloseFig (placeCells r c a lim datas 0 0).1 = 0 :=
        hs.2.2.2
      cases hres : (placeCells r c a lim datas 0 0).2 with
      | none =>
        rw [combinedEvents_nocp_ok r c datas a lim label ext hg hcp2 hres]
        simp [List.countP_cons, List.countP_append, isOpenFig, isCloseFig, ho,
          hc2]
      | some e =>
        rw [combinedEvents_nocp_err r c datas a lim label ext e hg hcp2 hres]
        simp [List.countP_cons, List.countP_append, isOpenFig, isCloseFig, ho,
          hc2]

/-- The combined-figure block records no individual draws. -/
theorem combinedEvents_renders (r c : Nat) (datas : List (String × Grid))
    (a : List (String × String)) (lim : List (String × (Int × Int)))
    (label ext : String) :
    rendersE (combinedEvents r c datas a lim label ext).1 = [] := by
  by_cases hg : r = 0 ∨ c = 0
  · rw [combinedEvents_guard r c datas a lim label ext hg]
    simp [rendersE, indivRenderOf]
  · by_cases hcp : (datas.map Prod.fst).contains "CP"
    · have hpr : List.filterMap indivRenderOf
          (placeCells r c a lim datas 0 1).1 = [] :=
        rendersE_placeCells r c a lim datas 0 1
      cases hres : (placeCells r c a lim datas 0 1).2 with
      | none =>
        rw [combinedEvents_cp_ok r c datas a lim label ext hg hcp hres]
        simp [rendersE, indivRenderOf, List.filterMap_cons,
          List.filterMap_append, hpr]
      | some e =>
        rw [combinedEvents_cp_err r c datas a lim label ext e hg hcp hres]
        simp [rendersE, indivRenderOf, List.filterMap_cons,
          List.filterMap_append, hpr]
    · have hcp2 : (datas.map Prod.fst).contains "CP" = false := by
        simpa using hcp
      have hpr : List.filterMap indivRenderOf
          (placeCells r c a lim datas 0 0).1 = [] :=
        rendersE_placeCells r c a lim datas 0 0
      cases hres : (placeCells r c a lim datas 0 0).2 with
      | none =>
        rw [combinedEvents_nocp_ok r c datas a lim label ext hg hcp2 hres]
        simp [rendersE, indivRenderOf, List.filterMap_cons,
          List.filterMap_append, hpr]
      | some e =>
        rw [combinedEvents_nocp_err r c datas a lim label ext e hg hcp2 hres]
        simp [rendersE, indivRenderOf, List.filterMap_cons,
          List.filterMap_append, hpr]

/-- Panels recorded by the combined-figure block: the "CP" panel is exactly
the hard-coded top-left one, and every other panel takes its bounds from the
`limits` table. -/
theorem combinedEvents_cells_mem (r c : Nat) (datas : List (String × Grid))
    (a : List (String × String)) (lim : List (String × (Int × Int)))
    (label ext : String) (cell : CellRender)
    (h : cell ∈ cellsE (combinedEvents r c datas a lim label ext).1) :
    (cell.key = "CP" → cell = cpCell datas) ∧
    (cell.key ≠ "CP" → cell.bounds = lim.lookup cell.key) := by
  by_cases hg : r = 0 ∨ c = 0
  · rw [combinedEvents_guard r c datas a lim label ext hg] at h
    simp [cellsE, cellOf] at h
  · by_cases hcp : (datas.map Prod.fst).contains "CP"
    · have hshape : cellsE (combinedEvents r c datas a lim label ext).1 =
          cpCell datas :: cellsE (placeCells r c a lim datas 0 1).1 := by
        cases hres : (placeCells r c a lim datas 0 1).2 with
        | none =>
          rw [combinedEvents_cp_ok r c datas a lim label ext hg hcp hres]
          simp [cellsE_append, cellsE_cons_open, cellsE_cons_place,
            cellsE_cons_saveC, cellsE_nil]
        | some e =>
          rw [combinedEvents_cp_err r c datas a lim label ext e hg hcp hres]
          simp [cellsE_append, cellsE_cons_open, cellsE_cons_place, cellsE_nil]
      rw [hshape] at h
      rcases List.mem_cons.mp h with h1 | h2
      · subst h1
        exact ⟨fun _ => rfl, fun hne => absurd rfl hne⟩
      · have hp := placeCells_cells_mem r c a lim datas 0 1 cell h2
        exact ⟨fun hCP => absurd hCP hp.1, fun _ => hp.2⟩
    · have hcp2 : (datas.map Prod.fst).contains "CP" = false := by
        simpa using hcp
      have hshape : cellsE (combinedEvents r c datas a lim label ext).1 =
          cellsE (placeCells r c a lim datas 0 0).1 := by
        cases hres : (placeCells r c a lim datas 0 0).2 with
        | none =>
          rw [combinedEvents_nocp_ok r c datas a lim label ext hg hcp2 hres]
          simp [cellsE_append, cellsE_cons_open, cellsE_cons_saveC, cellsE_nil]
        | some e =>
          rw [combinedEvents_nocp_err r c datas a lim label ext e hg hcp2 hres]
          simp [cellsE_append, cellsE_cons_open, cellsE_nil]
      rw [hshape] at h
      have hp := placeCells_cells_mem r c a lim datas 0 0 cell h
      exact ⟨fun hCP => absurd hCP hp.1, fun _ => hp.2⟩

theorem effectiveBounds_of_lookup (b : Option (Int × Int)) (g : Grid)
    (lim : List (String × (Int × Int))) (k : String) (hb : b = lim.lookup k) :
    effectiveBounds b g =
      match lim.lookup k with
      | some p => p
      | none => (gridMin g, gridMax g) := by
  subst hb
  cases h : lim.lookup k <;> simp [effectiveBounds, h]

theorem combinedSavesE_cons_mesh (sh : Nat × Nat) (psz : Int × Int)
    (evs : List Event) :
    combinedSavesE (Event.mesh sh psz :: evs) = combinedSavesE evs := by
  simp [combinedSavesE, combinedSaveFile]

/-- With a `figure_grid`, the call's error is the combined block's error and
the combined saves are exactly the combined block's saves. -/
theorem mapSeries_combined_result (k0 : String) (g0 : Grid)
    (rest : List (String × Grid)) (label : String) (ps : Int × Int)
    (r c : Nat) (lim : List (String × (Int × Int))) (cm : ColorMapArg)
    (ext : String) (a : List (String × String)) (evs : List Event)
    (err : Option PyErr)
    (ha : assignColorMaps cm (k0 :: rest.map Prod.fst) = Except.ok a)
    (hce : combinedEvents r c ((k0, g0) :: rest) a lim label ext = (evs, err)) :
    (mapSeries ((k0, g0) :: rest) label ps (some (r, c)) lim cm ext).error =
      err ∧
    combinedSavesE
        (mapSeries ((k0, g0) :: rest) label ps (some (r, c)) lim cm
          ext).events = combinedSavesE evs := by
  have hms : mapSeries ((k0, g0) :: rest) label ps (some (r, c)) lim cm ext =
      { events := Event.mesh (gridShape g0) ps ::
          indivEvents a lim label ext ((k0, g0) :: rest) ++
          (combinedEvents r c ((k0, g0) :: rest) a lim label ext).1,
        error := (combinedEvents r c ((k0, g0) :: rest) a lim label ext).2 } := by
    simp [mapSeries, ha]
  rw [hms, hce]
  refine ⟨rfl, ?_⟩
  show combinedSavesE (Event.mesh (gridShape g0) ps ::
      indivEvents a lim label ext ((k0, g0) :: rest) ++ (evs, err).1) =
    combinedSavesE evs
  rw [combinedSavesE_append, combinedSavesE_cons_mesh,
    combinedSavesE_indivEvents, List.nil_append]

/-- C2 (amended): the cell count of a `figure_grid` is never validated. When
`rows*columns` equals the number of maps placed (and, when "CP" is present,
`columns ≥ 2` or "CP" is the only map — a single-column grid with "CP"
faults because the running column starts at 1 and is never wrapped),
`map_series` writes exactly one combined file `<label>_all<extension>`; when
the grid has fewer cells than maps (with positive dimensions), the loop runs
off the grid and raises an opaque `IndexError`, not a descriptive error, and
writes no combined file; an oversized grid proceeds silently (see the
counterexample). -/
theorem c2_amended (datas : List (String × Grid)) (label : String)
    (ps : Int × Int) (r c : Nat) (lim : List (String × (Int × Int)))
    (cm : ColorMapArg) (ext : String)
    (hn : (datas.map Prod.fst).Nodup) (hne : datas ≠ [])
    (ha : ∃ a, assignColorMaps cm (datas.map Prod.fst) = Except.ok a) :
    (r * c = datas.length →
      ("CP" ∈ datas.map Prod.fst → 2 ≤ c ∨ nonCP datas = []) →
      (mapSeries datas label ps (some (r, c)) lim cm ext).error = none ∧
      combinedSavesE
          (mapSeries datas label ps (some (r, c)) lim cm ext).events =
        [label ++ "_all" ++ ext]) ∧
    (0 < r → 0 < c → r * c < datas.length →
      (mapSeries datas label ps (some (r, c)) lim cm ext).error =
        some PyErr.indexError ∧
      combinedSavesE
          (mapSeries datas label ps (some (r, c)) lim cm ext).events = []) := by
  obtain ⟨a, ha⟩ := ha
  cases datas with
  | nil => exact absurd rfl hne
  | cons p rest =>
  obtain ⟨k0, g0⟩ := p
  simp only [List.map_cons] at ha
  constructor
  · intro hrc hside
    have hlen : 0 < ((k0, g0) :: rest).length := by simp
    have hg : ¬(r = 0 ∨ c = 0) := by
      rintro (rfl | rfl)
      · rw [Nat.zero_mul] at hrc
        omega
      · rw [Nat.mul_zero] at hrc
        omega
    by_cases hcp : "CP" ∈ ((k0, g0) :: rest).map Prod.fst
    · have hcpv : (((k0, g0) :: rest).map Prod.fst).contains "CP" = true := by
        simpa using hcp
      have hlencp := nonCP_length_cp ((k0, g0) :: rest) hn hcp
      have hres : (placeCells r c a lim ((k0, g0) :: rest) 0 1).2 = none := by
        rcases hside hcp with hc2 | hnil
        · rw [placeCells_ok r c a lim ((k0, g0) :: rest) 0 1 (by omega)
            (by omega)]
        · rw [placeCells_nonCP_nil r c a lim ((k0, g0) :: rest) 0 1 hnil]
      have hce := combinedEvents_cp_ok r c ((k0, g0) :: rest) a lim label ext
        hg hcpv hres
      obtain ⟨herr, hsave⟩ := mapSeries_combined_result k0 g0 rest label ps r c
        lim cm ext a _ _ ha hce
      refine ⟨herr, ?_⟩
      rw [hsave]
      have hpl1 : List.filterMap combinedSaveFile
          (placeCells r c a lim ((k0, g0) :: rest) 0 1).1 = [] :=
        (placeCells_saves r c a lim ((k0, g0) :: rest) 0 1).1
      simp [combinedSavesE, combinedSaveFile, List.filterMap_cons,
        List.filterMap_append, hpl1]
    · have hcpv : (((k0, g0) :: rest).map Prod.fst).contains "CP" = false := by
        simpa using hcp
      have hself : nonCP ((k0, g0) :: rest) = (k0, g0) :: rest :=
        nonCP_eq_self ((k0, g0) :: rest) hcp
      have hlens : (nonCP ((k0, g0) :: rest)).length =
          ((k0, g0) :: rest).length := by rw [hself]
      have hc0 : 0 < c := by
        push_neg at hg
        omega
      have hres : (placeCells r c a lim ((k0, g0) :: rest) 0 0).2 = none := by
        rw [placeCells_ok r c a lim ((k0, g0) :: rest) 0 0 hc0 (by omega)]
      have hce := combinedEvents_nocp_ok r c ((k0, g0) :: rest) a lim label ext
        hg hcpv hres
      obtain ⟨herr, hsave⟩ := mapSeries_combined_result k0 g0 rest label ps r c
        lim cm ext a _ _ ha hce
      refine ⟨herr, ?_⟩
      rw [hsave]
      have hpl1 : List.filterMap combinedSaveFile
          (placeCells r c a lim ((k0, g0) :: rest) 0 0).1 = [] :=
        (placeCells_saves r c a lim ((k0, g0) :: rest) 0 0).1
      simp [combinedSavesE, combinedSaveFile, List.filterMap_cons,
        List.filterMap_append, hpl1]
  · intro hr hc hlt
    have hg : ¬(r = 0 ∨ c = 0) := by omega
    have hrc1 : 0 < r * c := Nat.mul_pos hr hc
    by_cases hcp : "CP" ∈ ((k0, g0) :: rest).map Prod.fst
    · have hcpv : (((k0, g0) :: rest).map Prod.fst).contains "CP" = true := by
        simpa using hcp
      have hlencp := nonCP_length_cp ((k0, g0) :: rest) hn hcp
      have hres : (placeCells r c a lim ((k0, g0) :: rest) 0 1).2 =
          some PyErr.indexError :=
        placeCells_fail r c a lim ((k0, g0) :: rest) 0 1 hc (by omega)
          (by omega) (by omega)
      have hce := combinedEvents_cp_err r c ((k0, g0) :: rest) a lim label ext
        PyErr.indexError hg hcpv hres
      obtain ⟨herr, hsave⟩ := mapSeries_combined_result k0 g0 rest label ps r c
        lim cm ext a _ _ ha hce
      refine ⟨herr, ?_⟩
      rw [hsave]
      have hpl1 : List.filterMap combinedSaveFile
          (placeCells r c a lim ((k0, g0) :: rest) 0 1).1 = [] :=
        (placeCells_saves r c a lim ((k0, g0) :: rest) 0 1).1
      simp [combinedSavesE, combinedSaveFile, List.filterMap_cons,
        List.filterMap_append, hpl1]
    · have hcpv : (((k0, g0) :: rest).map Prod.fst).contains "CP" = false := by
        simpa using hcp
      have hself : nonCP ((k0, g0) :: rest) = (k0, g0) :: rest :=
        nonCP_eq_self ((k0, g0) :: rest) hcp
      have hlens : (nonCP ((k0, g0) :: rest)).length =
          ((k0, g0) :: rest).length := by rw [hself]
      have hres : (placeCells r c a lim ((k0, g0) :: rest) 0 0).2 =
          some PyErr.indexError :=
        placeCells_fail r c a lim ((k0, g0) :: rest) 0 0 hc (by omega)
          (by omega) (by omega)
      have hce := combinedEvents_nocp_err r c ((k0, g0) :: rest) a lim label
        ext PyErr.indexError hg hcpv hres
      obtain ⟨herr, hsave⟩ := mapSeries_combined_result k0 g0 rest label ps r c
        lim cm ext a _ _ ha hce
      refine ⟨herr, ?_⟩
      rw [hsave]
      have hpl1 : List.filterMap combinedSaveFile
          (placeCells r c a lim ((k0, g0) :: rest) 0 0).1 = [] :=
        (placeCells_saves r c a lim ((k0, g0) :: rest) 0 0).1
      simp [combinedSavesE, combinedSaveFile, List.filterMap_cons,
        List.filterMap_append, hpl1]

/-- C2 witness (for the amended claim's exact-fit branch). -/
theorem c2_witness :
    (mapSeries [("CP", [[9]]), ("Fe", [[1]]), ("Cu", [[2]]), ("Mn", [[3]])]
        "m" (1, 1) (some (2, 2)) [] (ColorMapArg.list ["A", "B"])
        ".png").error = none ∧
    combinedSavesE
        (mapSeries [("CP", [[9]]), ("Fe", [[1]]), ("Cu", [[2]]), ("Mn", [[3]])]
          "m" (1, 1) (some (2, 2)) [] (ColorMapArg.list ["A", "B"])
          ".png").events = ["m" ++ "_all" ++ ".png"] :=
  (c2_amended [("CP", [[9]]), ("Fe", [[1]]), ("Cu", [[2]]), ("Mn", [[3]])]
      "m" (1, 1) 2 2 [] (ColorMapArg.list ["A", "B"]) ".png" (by decide)
      (by decide)
      ⟨[("CP", "Greys"), ("Fe", "A"), ("Cu", "B"), ("Mn", "A")], by decide⟩).1
    (by decide) (fun _ => Or.inl (by decide))

/-- C8 (amended): each per-element figure is released after its save — a
call without `figure_grid` closes exactly as many figures as it opens — but
the combined figure is never closed: with a `figure_grid` the call always
leaves exactly one figure open at return, so repeated calls accumulate open
figures. -/
theorem c8_amended (datas : List (String × Grid)) (label : String)
    (ps : Int × Int) (grid : Option (Nat × Nat))
    (lim : List (String × (Int × Int))) (cm : ColorMapArg) (ext : String)
    (hne : datas ≠ [])
    (ha : ∃ a, assignColorMaps cm (datas.map Prod.fst) = Except.ok a) :
    (grid = none →
      countOpen (mapSeries datas label ps grid lim cm ext).events =
        countClose (mapSeries datas label ps grid lim cm ext).events) ∧
    (∀ r c, grid = some (r, c) →
      countOpen (mapSeries datas label ps grid lim cm ext).events =
        countClose (mapSeries datas label ps grid lim cm ext).events + 1) := by
  obtain ⟨a, ha⟩ := ha
  cases datas with
  | nil => exact absurd rfl hne
  | cons p rest =>
    obtain ⟨k0, g0⟩ := p
    simp only [List.map_cons] at ha
    have h1 : List.countP isOpenFig
        (indivEvents a lim label ext ((k0, g0) :: rest)) =
        ((k0, g0) :: rest).length :=
      countOpen_indivEvents a lim label ext ((k0, g0) :: rest)
    have h2 : List.countP isCloseFig
        (indivEvents a lim label ext ((k0, g0) :: rest)) =
        ((k0, g0) :: rest).length :=
      countClose_indivEvents a lim label ext ((k0, g0) :: rest)
    constructor
    · rintro rfl
      have hev : (mapSeries ((k0, g0) :: rest) label ps none lim cm
          ext).events =
          Event.mesh (gridShape g0) ps ::
            indivEvents a lim label ext ((k0, g0) :: rest) := by
        simp [mapSeries, ha]
      rw [hev]
      simp only [countOpen, countClose, List.countP_cons, isOpenFig,
        isCloseFig, h1, h2]
    · rintro r c rfl
      have hev : (mapSeries ((k0, g0) :: rest) label ps (some (r, c)) lim cm
          ext).events =
          Event.mesh (gridShape g0) ps ::
            indivEvents a lim label ext ((k0, g0) :: rest) ++
            (combinedEvents r c ((k0, g0) :: rest) a lim label ext).1 := by
        simp [mapSeries, ha]
      have hcc := combinedEvents_counts r c ((k0, g0) :: rest) a lim label ext
      rw [hev]
      simp only [countOpen, countClose, List.countP_cons, List.countP_append,
        isOpenFig, isCloseFig, h1, h2, hcc.1, hcc.2]

/-- C8 witness (for the combined-figure branch of the amended claim). -/
theorem c8_witness :
    countOpen (mapSeries [("Fe", [[1]])] "m" (1, 1) (some (1, 1)) []
        (ColorMapArg.str "G") ".png").events =
      countClose (mapSeries [("Fe", [[1]])] "m" (1, 1) (some (1, 1)) []
        (ColorMapArg.str "G") ".png").events + 1 :=
  (c8_amended [("Fe", [[1]])] "m" (1, 1) (some (1, 1)) []
      (ColorMapArg.str "G") ".png" (by decide) ⟨[("Fe", "G")], by decide⟩).2
    1 1 rfl

theorem indivEvents_renders_mem (a : List (String × String))
    (lim : List (String × (Int × Int))) (label ext : String)
    (ds : List (String × Grid)) (rend : IndivRender)
    (h : rend ∈ rendersE (indivEvents a lim label ext ds)) :
    rend.bounds = lim.lookup rend.key := by
  rw [rendersE_indivEvents] at h
  obtain ⟨p, hp, rfl⟩ := List.mem_map.mp h
  rfl

/-- C6 (amended): every individual per-element figure takes its color-scale
bounds from the `limits` table when its label has an entry and auto-scales to
its own data range otherwise; the same holds for every non-"CP" panel of the
combined figure; but the "CP" panel of the combined figure always
auto-scales, ignoring a "CP" entry in `limits`. -/
theorem c6_amended (datas : List (String × Grid)) (label : String)
    (ps : Int × Int) (grid : Option (Nat × Nat))
    (lim : List (String × (Int × Int))) (cm : ColorMapArg) (ext : String) :
    (∀ rend ∈ rendersE (mapSeries datas label ps grid lim cm ext).events,
      rend.bounds = lim.lookup rend.key ∧
      effectiveBounds rend.bounds rend.data =
        match lim.lookup rend.key with
        | some p => p
        | none => (gridMin rend.data, gridMax rend.data)) ∧
    (∀ cell ∈ cellsE (mapSeries datas label ps grid lim cm ext).events,
      (cell.key = "CP" → cell.bounds = none ∧
        effectiveBounds cell.bounds cell.data =
          (gridMin cell.data, gridMax cell.data)) ∧
      (cell.key ≠ "CP" → cell.bounds = lim.lookup cell.key)) := by
  cases datas with
  | nil =>
    constructor <;> intro x hx <;>
      simp [mapSeries, rendersE, cellsE, indivRenderOf, cellOf] at hx
  | cons p rest =>
    obtain ⟨k0, g0⟩ := p
    cases hassign : assignColorMaps cm (((k0, g0) :: rest).map Prod.fst) with
    | error e =>
      simp only [List.map_cons] at hassign
      have hev : (mapSeries ((k0, g0) :: rest) label ps grid lim cm
          ext).events = [Event.mesh (gridShape g0) ps] := by
        simp [mapSeries, hassign]
      constructor
      · intro rend hrend
        rw [hev] at hrend
        simp [rendersE, indivRenderOf] at hrend
      · intro cell hcell
        rw [hev] at hcell
        simp [cellsE, cellOf] at hcell
    | ok a =>
      simp only [List.map_cons] at hassign
      cases grid with
      | none =>
        have hev : (mapSeries ((k0, g0) :: rest) label ps none lim cm
            ext).events = Event.mesh (gridShape g0) ps ::
              indivEvents a lim label ext ((k0, g0) :: rest) := by
          simp [mapSeries, hassign]
        constructor
        · intro rend hrend
          rw [hev, rendersE_cons_mesh] at hrend
          have hb := indivEvents_renders_mem a lim label ext
            ((k0, g0) :: rest) rend hrend
          exact ⟨hb, effectiveBounds_of_lookup rend.bounds rend.data lim
            rend.key hb⟩
        · intro cell hcell
          rw [hev, cellsE_cons_mesh, cellsE_indivEvents] at hcell
          simp at hcell
      | some rc =>
        obtain ⟨r, c⟩ := rc
        have hev : (mapSeries ((k0, g0) :: rest) label ps (some (r, c)) lim cm
            ext).events =
            (Event.mesh (gridShape g0) ps ::
              indivEvents a lim label ext ((k0, g0) :: rest)) ++
              (combinedEvents r c ((k0, g0) :: rest) a lim label ext).1 := by
          simp [mapSeries, hassign]
        constructor
        · intro rend hrend
          rw [hev, rendersE_append, rendersE_cons_mesh,
            combinedEvents_renders, List.append_nil] at hrend
          have hb := indivEvents_renders_mem a lim label ext
            ((k0, g0) :: rest) rend hrend
          exact ⟨hb, effectiveBounds_of_lookup rend.bounds rend.data lim
            rend.key hb⟩
        · intro cell hcell
          rw [hev, cellsE_append, cellsE_cons_mesh, cellsE_indivEvents,
            List.nil_append] at hcell
          have hc := combinedEvents_cells_mem r c ((k0, g0) :: rest) a lim
            label ext cell hcell
          refine ⟨?_, hc.2⟩
          intro hCP
          have hcpcell := hc.1 hCP
          subst hcpcell
          exact ⟨rfl, rfl⟩

/-- C6 witness (for the combined-figure "CP" panel of the amended claim). -/
theorem c6_witness :
    cpCell [("CP", ([[0], [5]] : Grid))] ∈
      cellsE (mapSeries [("CP", [[0], [5]])] "m" (1, 1) (some (1, 1))
        [("CP", (0, 100))] (ColorMapArg.str "Greys") ".png").events ∧
    (((cpCell [("CP", ([[0], [5]] : Grid))]).key = "CP" →
        (cpCell [("CP", ([[0], [5]] : Grid))]).bounds = none ∧
        effectiveBounds (cpCell [("CP", ([[0], [5]] : Grid))]).bounds
            (cpCell [("CP", ([[0], [5]] : Grid))]).data =
          (gridMin (cpCell [("CP", ([[0], [5]] : Grid))]).data,
            gridMax (cpCell [("CP", ([[0], [5]] : Grid))]).data)) ∧
      ((cpCell [("CP", ([[0], [5]] : Grid))]).key ≠ "CP" →
        (cpCell [("CP", ([[0], [5]] : Grid))]).bounds =
          List.lookup (cpCell [("CP", ([[0], [5]] : Grid))]).key
            [("CP", (0, 100))])) :=
  ⟨by decide,
    (c6_amended [("CP", [[0], [5]])] "m" (1, 1) (some (1, 1))
        [("CP", (0, 100))] (ColorMapArg.str "Greys") ".png").2
      (cpCell [("CP", [[0], [5]])]) (by decide)⟩

/-- C7 (confirmed): on a successful combined render with "CP" present, the
"CP" panel is the first placed, at the top-left cell with the hard-coded
`'Greys_r'` colormap; the remaining elements fill cells in insertion order,
row-major from linear position 1 (skipping the "CP" slot); every panel gets
its own colorbar; a y-axis label appears only in the leftmost column and an
x-axis label only in the bottom row. -/
theorem c7_confirmed (datas : List (String × Grid)) (label : String)
    (ps : Int × Int) (r c : Nat) (lim : List (String × (Int × Int)))
    (cm : ColorMapArg) (ext : String) (cs : List CellRender)
    (hcp : "CP" ∈ datas.map Prod.fst)
    (herr : (mapSeries datas label ps (some (r, c)) lim cm ext).error = none)
    (hcs : cs =
      cellsE (mapSeries datas label ps (some (r, c)) lim cm ext).events) :
    cs.head? = some (cpCell datas) ∧
    cs.tail.map CellRender.key = (nonCP datas).map Prod.fst ∧
    (∀ t, t < cs.tail.length →
      (cs.tail.getD t dummyCell).row = (1 + t) / c ∧
      (cs.tail.getD t dummyCell).col = (1 + t) % c) ∧
    (∀ cell ∈ cs, cell.colorbar = true) ∧
    (∀ cell ∈ cs, cell.ylabel = true → cell.col = 0) ∧
    (∀ cell ∈ cs, cell.xlabel = true → cell.row + 1 = r) := by
  cases datas with
  | nil => simp at hcp
  | cons p rest =>
  obtain ⟨k0, g0⟩ := p
  cases hassign : assignColorMaps cm (((k0, g0) :: rest).map Prod.fst) with
  | error e =>
    simp only [List.map_cons] at hassign
    have : (mapSeries ((k0, g0) :: rest) label ps (some (r, c)) lim cm
        ext).error = some e := by
      simp [mapSeries, hassign]
    rw [this] at herr
    simp at herr
  | ok a =>
    simp only [List.map_cons] at hassign
    have hms : mapSeries ((k0, g0) :: rest) label ps (some (r, c)) lim cm ext =
        { events := Event.mesh (gridShape g0) ps ::
            indivEvents a lim label ext ((k0, g0) :: rest) ++
            (combinedEvents r c ((k0, g0) :: rest) a lim label ext).1,
          error :=
            (combinedEvents r c ((k0, g0) :: rest) a lim label ext).2 } := by
      simp [mapSeries, hassign]
    have herr2 : (combinedEvents r c ((k0, g0) :: rest) a lim label ext).2 =
        none := by
      rw [hms] at herr
      exact herr
    by_cases hg : r = 0 ∨ c = 0
    · rw [combinedEvents_guard r c ((k0, g0) :: rest) a lim label ext hg]
        at herr2
      simp at herr2
    · have hcpv : (((k0, g0) :: rest).map Prod.fst).contains "CP" = true := by
        simpa using hcp
      have hc0 : 0 < c := by
        push_neg at hg
        omega
      cases hres0 : (placeCells r c a lim ((k0, g0) :: rest) 0 1).2 with
      | some e =>
        rw [combinedEvents_cp_err r c ((k0, g0) :: rest) a lim label ext e hg
          hcpv hres0] at herr2
        simp at herr2
      | none =>
        have hce := combinedEvents_cp_ok r c ((k0, g0) :: rest) a lim label
          ext hg hcpv hres0
        have hshape := placeCells_ok_shape r c a lim ((k0, g0) :: rest) 0 1
          hc0 (by omega) hres0
        have h01 : 0 * c + 1 = 1 := by omega
        rw [h01] at hshape
        have hcells : cs = cpCell ((k0, g0) :: rest) ::
            placedSpec r c a lim ((k0, g0) :: rest) 1 := by
          rw [hcs, hms]
          show cellsE ((Event.mesh (gridShape g0) ps ::
              indivEvents a lim label ext ((k0, g0) :: rest)) ++
              (combinedEvents r c ((k0, g0) :: rest) a lim label ext).1) = _
          rw [cellsE_append, cellsE_cons_mesh, cellsE_indivEvents,
            List.nil_append, hce]
          show cellsE (Event.openFig :: ([Event.placeCell
              (cpCell ((k0, g0) :: rest))] ++
              (placeCells r c a lim ((k0, g0) :: rest) 0 1).1) ++
              [Event.saveCombined (label ++ "_all" ++ ext)]) = _
          rw [hshape]
          simp [cellsE_append, cellsE_cons_open, cellsE_cons_place,
            cellsE_cons_saveC, cellsE_nil, cellsE_map_placeCell]
        rw [hcells]
        refine ⟨rfl, ?_, ?_, ?_, ?_, ?_⟩
        · simpa using placedSpec_keys r c a lim ((k0, g0) :: rest) 1
        · intro t ht
          simp only [List.tail_cons] at ht ⊢
          exact placedSpec_getD r c a lim ((k0, g0) :: rest) 1 t ht
        · intro cell hcell
          rcases List.mem_cons.mp hcell with h1 | h2
          · subst h1
            rfl
          · exact (placedSpec_mem r c a lim ((k0, g0) :: rest) 1 cell h2).1
        · intro cell hcell
          rcases List.mem_cons.mp hcell with h1 | h2
          · subst h1
            intro _
            rfl
          · exact (placedSpec_mem r c a lim ((k0, g0) :: rest) 1 cell
              h2).2.2.2.1
        · intro cell hcell
          rcases List.mem_cons.mp hcell with h1 | h2
          · subst h1
            intro hx
            simp [cpCell] at hx
          · exact (placedSpec_mem r c a lim ((k0, g0) :: rest) 1 cell
              h2).2.2.2.2

/-- C7 witness. -/
theorem c7_witness :
    "CP" ∈ c7wDatas.map Prod.fst ∧
    (mapSeries c7wDatas "m" (1, 1) (some (2, 2)) []
        (ColorMapArg.list ["A", "B"]) ".png").error = none ∧
    c7wCells.head? = some (cpCell c7wDatas) :=
  ⟨by decide, by decide,
    (c7_confirmed c7wDatas "m" (1, 1) 2 2 [] (ColorMapArg.list ["A", "B"])
      ".png" c7wCells (by decide) (by decide) rfl).1⟩

end EPMA
